import Mathlib

/-!
# Inspector JS bindings (`src/inspector_js_api.cc`)

A shallow embedding of the session bridge (`JSBindingsConnection`), its session
delegate, the async-task relay and the task handle codec (`GetAsyncTask`),
followed by the properties proved about them.

Conventions of the embedding

* `int64_t` values are integers in `[-2^63, 2^63)`; `asyncId << 1` is the
  two's complement shift (bits shifted out of the 64-bit word are lost).
* A `void*` is its bit pattern, a natural number below `2 ^ ptrBits`.
* Strings are lists of UTF-16 code units.
* Calls into collaborators defined outside `inspector_js_api.cc` (the `Agent`,
  the native `InspectorSession`, script callbacks) are recorded, in order, in a
  trace of `Event`s.
* A failed `CHECK`, or `ToLocalChecked()` on an empty handle, aborts the
  process: the entry point returns `none`.
-/

namespace node
namespace inspector

/-! ## Machine integers -/

/-- The value range of `int64_t`. -/
def isInt64 (x : Int) : Prop := -2 ^ 63 ≤ x ∧ x < 2 ^ 63

instance (x : Int) : Decidable (isInt64 x) := by
  unfold isInt64; infer_instance

/-- Two's complement reading of a `w`-bit pattern. -/
def toSigned (w : Nat) (p : Nat) : Int :=
  if p < 2 ^ (w - 1) then (p : Int) else (p : Int) - 2 ^ w

/-- The operator `x << k` on `int64_t`: the low 64 bits of `x * 2^k`, read as a
signed value. -/
def shl64 (x : Int) (k : Nat) : Int :=
  toSigned 64 ((x * 2 ^ k) % 2 ^ 64).toNat

/-- The conversion `reinterpret_cast<void*>(v)` of an integer to a pointer of
`ptrBits` bits: the low `ptrBits` bits of `v`. -/
def reinterpret_cast (ptrBits : Nat) (v : Int) : Nat :=
  (v % 2 ^ ptrBits).toNat

/-! ## Task handle codec -/

/-- The function `GetAsyncTask(int64_t asyncId)`:
`return reinterpret_cast<void*>(asyncId << 1);` -/
def GetAsyncTask (ptrBits : Nat) (asyncId : Int) : Nat :=
  reinterpret_cast ptrBits (shl64 asyncId 1)

/-! ## Script values and the trace of collaborator calls -/

/-- A script value, as far as the bindings look at it. A string is its UTF-16
code units, a function is the identity of the function object, and a number
carries the `int64_t` that `IntegerValue(context).FromJust()` yields for it. -/
inductive Value where
  | undefined
  | boolean (b : Bool)
  | number (integerValue : Int)
  | string (units : List Nat)
  | function (f : Nat)
  deriving DecidableEq

/-- The test `value->IsString()`. -/
def Value.IsString : Value → Bool
  | .string _ => true
  | _ => false

/-- The test `value->IsNumber()`. -/
def Value.IsNumber : Value → Bool
  | .number _ => true
  | _ => false

/-- The test `value->IsBoolean()`. -/
def Value.IsBoolean : Value → Bool
  | .boolean _ => true
  | _ => false

/-- The test `value->IsFunction()`. -/
def Value.IsFunction : Value → Bool
  | .function _ => true
  | _ => false

/-- The argument `info[i]` of a `FunctionCallbackInfo`: `undefined` past the
last argument. -/
def arg (info : List Value) (i : Nat) : Value :=
  info.getD i Value.undefined

/-- One call that leaves `inspector_js_api.cc`: into the `Agent`, into the native
`InspectorSession`, or into a script function. -/
inductive Event where
  /-- `Agent::Connect(delegate, is_remote)` was called and returned `session`. -/
  | Connect (is_remote : Bool) (session : Nat)
  /-- `InspectorSession::Dispatch(message)` on `session`. -/
  | SessionDispatch (session : Nat) (message : List Nat)
  /-- The `std::unique_ptr<InspectorSession>` released `session`. -/
  | SessionReleased (session : Nat)
  /-- The script function `callback` was invoked with `argv`. -/
  | Call (callback : Nat) (argv : List Value)
  | AsyncTaskScheduled (task_name : List Nat) (task : Nat) (recurring : Bool)
  | AsyncTaskStarted (task : Nat)
  | AsyncTaskFinished (task : Nat)
  | AsyncTaskCanceled (task : Nat)
  deriving DecidableEq

/-! ## The bridge and its environment -/

/-- The native session a bridge owns, identified by the number `Agent::Connect`
gave it. The session owns the `JSBindingsSessionDelegate` handed to `Connect`. -/
structure InspectorSession where
  id : Nat
  deriving DecidableEq

/-- The fields of `class JSBindingsConnection`:
`std::unique_ptr<InspectorSession> session_` (`none` is the null pointer) and
`Global<Function> callback_`. -/
structure JSBindingsConnection where
  session_ : Option InspectorSession
  callback_ : Nat
  deriving DecidableEq

/-- Modelled from the spec: the state of the `Agent` (inspector_agent.h) that the bindings can observe: the number of the next session it
opens, and the single slot holding the registered async-hook pair
(enable, disable). -/
structure Agent where
  next_session_id : Nat
  async_hook : Option (Nat × Nat)
  deriving DecidableEq

/-- The environment of one bridge: the `Agent`, the calls made so far, and the
script object wrapping the bridge (`info.Holder()`), which is the pointer in its
internal field: `none` is the null pointer, held once the native object has been
deleted. -/
structure State where
  agent : Agent
  trace : List Event
  holder : Option JSBindingsConnection
  deriving DecidableEq

/-- Append one call to the trace. -/
def State.emit (st : State) (e : Event) : State :=
  { st with trace := st.trace ++ [e] }

/-- A bridge is connected while its wrapper points to a native object that
owns a session. -/
def State.connected (st : State) : Bool :=
  match st.holder with
  | some connection => connection.session_.isSome
  | none => false

/-! ## Collaborators outside `inspector_js_api.cc` -/

/-- Modelled from the spec: `Agent::Connect(delegate, is_remote)`
(inspector_agent.h), "creates and returns a native session": the session gets
the next free number. -/
def Agent.Connect (agent : Agent) (_is_remote : Bool) : Agent × InspectorSession :=
  ({ agent with next_session_id := agent.next_session_id + 1 },
   { id := agent.next_session_id })

/-- Modelled from the spec: `Agent::RegisterAsyncHook(isolate, enable, disable)`
(inspector_agent.h): "stores the pair, replacing any previous pair". -/
def Agent.RegisterAsyncHook (agent : Agent) (enable_function disable_function : Nat) :
    Agent :=
  { agent with async_hook := some (enable_function, disable_function) }

/-- Modelled from the spec: the debugging engine starts needing async-tracking
instrumentation and invokes the registered `enable_fn` (no call when nothing is
registered). -/
def Agent.EnableAsyncHook (st : State) : State :=
  match st.agent.async_hook with
  | some (enable_function, _) => st.emit (Event.Call enable_function [])
  | none => st

/-- Modelled from the spec: the debugging engine stops needing async-tracking
instrumentation and invokes the registered `disable_fn`. -/
def Agent.DisableAsyncHook (st : State) : State :=
  match st.agent.async_hook with
  | some (_, disable_function) => st.emit (Event.Call disable_function [])
  | none => st

/-- Modelled from the spec: `AsyncWrap::MakeCallback(cb, argc, argv)`
(async_wrap.h): invokes the stored callback with the first `argc` values of
`argv` as its arguments. -/
def MakeCallback (st : State) (cb : Nat) (argc : Nat) (argv : List Value) : State :=
  st.emit (Event.Call cb (argv.take argc))

/-- Modelled from the spec: `String::NewFromTwoByte(isolate, data, type, length)`
(v8.h): the script string made of the first `length` code units of `data`. The
result is a `MaybeLocal`, empty (`none`) when `length` exceeds the engine's
limit on the length of a string, `String::kMaxLength`. The limit is a constant
of v8.h that depends on the engine's build (`2^29 - 24` or `2^30 - 25` code
units on 64-bit builds) and is taken as the parameter `kMaxLength`. -/
def NewFromTwoByte (kMaxLength : Nat) (data : List Nat) (length : Nat) : Option Value :=
  if length ≤ kMaxLength then some (Value.string (data.take length)) else none

/-- Modelled from the spec: `TwoByteValue buffer(isolate, value)` (util.h): the
code units of a string value. `ToProtocolString` is only reached after
`CHECK(info[0]->IsString())`, so the conversion of other values never runs. -/
def TwoByteValue (value : Value) : List Nat :=
  match value with
  | .string units => units
  | _ => []

/-- Modelled from the spec: the destructor of the `BaseObject` part of the
bridge (base_object-inl.h), run by `delete this`: the wrapper no longer points
to a native object, so that "any caller reference to it becomes invalid". -/
def BaseObject.destroy (st : State) : State :=
  { st with holder := none }

/-- Modelled from the spec: `ASSIGN_OR_RETURN_UNWRAP(&session, info.Holder())`
(base_object-inl.h) reads the native object out of the wrapper; the enclosing
function returns at once when there is none. -/
def FromJSObject (st : State) : Option JSBindingsConnection :=
  st.holder

/-! ## `ToProtocolString` -/

/-- The function `ToProtocolString(isolate, value)`:
`TwoByteValue buffer(isolate, value);
 return StringBuffer::create(StringView(*buffer, buffer.length()));` -/
def ToProtocolString (value : Value) : List Nat :=
  let buffer := TwoByteValue value
  buffer.take buffer.length

/-! ## `JSBindingsConnection` -/

/-- The member `std::unique_ptr<InspectorSession>::reset()`: releases the owned
session, if there is one. -/
def releaseSession (st : State) (session : Option InspectorSession) : State :=
  match session with
  | some s => st.emit (Event.SessionReleased s.id)
  | none => st

/-- The constructor `JSBindingsConnection(env, wrap, callback)`: records the
callback and opens a session with `inspector->Connect(delegate, false)`; the
wrapper `wrap` now points to the new object. -/
def JSBindingsConnection.create (st : State) (callback : Nat) : State :=
  let opened := st.agent.Connect false
  { agent := opened.1,
    trace := st.trace ++ [Event.Connect false opened.2.id],
    holder := some { session_ := some opened.2, callback_ := callback } }

/-- The static method `New(info)`: `CHECK(info[0]->IsFunction())`, then
`new JSBindingsConnection(env, info.This(), callback)`. -/
def JSBindingsConnection.New (st : State) (info : List Value) : Option State :=
  match arg info 0 with
  | .function callback => some (JSBindingsConnection.create st callback)
  | _ => none

/-- The method `OnMessage(value)`:
`MakeCallback(callback_.Get(env()->isolate()), 1, &value);` -/
def JSBindingsConnection.OnMessage (self : JSBindingsConnection) (st : State)
    (value : Value) : State :=
  MakeCallback st self.callback_ 1 [value]

/-- The method `JSBindingsSessionDelegate::SendMessageToFrontend(message)` of
the delegate whose `connection_` is `connection`: builds the script string with
`String::NewFromTwoByte(isolate, message.characters16(), kNormal,
message.length())`, takes it with `ToLocalChecked()` (fatal on an empty handle)
and passes it to `connection_->OnMessage`. -/
def JSBindingsSessionDelegate.SendMessageToFrontend (kMaxLength : Nat)
    (connection : JSBindingsConnection) (st : State) (message : List Nat) :
    Option State :=
  match NewFromTwoByte kMaxLength message message.length with
  | some argument => some (connection.OnMessage st argument)
  | none => none

/-- The member `Disconnect()`: `session_.reset(); delete this;`. The deletion
runs the destructor of the (now empty) `session_` and of the base object. -/
def JSBindingsConnection.Disconnect (self : JSBindingsConnection) (st : State) : State :=
  let st1 := releaseSession st self.session_
  let self1 : JSBindingsConnection := { self with session_ := none }
  BaseObject.destroy (releaseSession st1 self1.session_)

/-- The static method `Disconnect(info)`:
`ASSIGN_OR_RETURN_UNWRAP(&session, info.Holder()); session->Disconnect();` -/
def JSBindingsConnection.Disconnect_info (st : State) (_info : List Value) :
    Option State :=
  match FromJSObject st with
  | none => some st
  | some session => some (session.Disconnect st)

/-- The static method `Dispatch(info)`: unwraps the bridge,
`CHECK(info[0]->IsString())`, and, if `session->session_` is set, calls
`session->session_->Dispatch(ToProtocolString(isolate, info[0])->string())`. -/
def JSBindingsConnection.Dispatch (st : State) (info : List Value) : Option State :=
  match FromJSObject st with
  | none => some st
  | some session =>
    if (arg info 0).IsString then
      match session.session_ with
      | some s => some (st.emit (Event.SessionDispatch s.id (ToProtocolString (arg info 0))))
      | none => some st
    else none

/-- The native session of the bridge pushes `message`: it calls
`SendMessageToFrontend` on the delegate it owns. A session that has been
released no longer exists and pushes nothing. -/
def sessionPush (kMaxLength : Nat) (st : State) (message : List Nat) : Option State :=
  match st.holder with
  | some connection =>
    match connection.session_ with
    | some _ =>
      JSBindingsSessionDelegate.SendMessageToFrontend kMaxLength connection st message
    | none => some st
  | none => some st

/-! ## Async task relay and async-hook registration -/

/-- The template `InvokeAsyncTaskFnWithId<asyncTaskFn>(args)`:
`CHECK(args[0]->IsNumber())`, reads the `int64_t` task id and calls
`(agent->*asyncTaskFn)(GetAsyncTask(task_id))`. -/
def InvokeAsyncTaskFnWithId (ptrBits : Nat) (asyncTaskFn : Nat → Event) (st : State)
    (args : List Value) : Option State :=
  match arg args 0 with
  | .number task_id => some (st.emit (asyncTaskFn (GetAsyncTask ptrBits task_id)))
  | _ => none

/-- The function `AsyncTaskScheduledWrapper(args)`: checks and reads the name
(`args[0]`, a string), the task id (`args[1]`, a number) and the recurring flag
(`args[2]`, a boolean), then calls
`agent->AsyncTaskScheduled(task_name_view, task, recurring)`. -/
def AsyncTaskScheduledWrapper (ptrBits : Nat) (st : State) (args : List Value) :
    Option State :=
  match arg args 0 with
  | .string task_name_value =>
    let task_name_view := task_name_value.take task_name_value.length
    match arg args 1 with
    | .number task_id =>
      let task := GetAsyncTask ptrBits task_id
      match arg args 2 with
      | .boolean recurring =>
        some (st.emit (Event.AsyncTaskScheduled task_name_view task recurring))
      | _ => none
    | _ => none
  | _ => none

/-- The function `RegisterAsyncHookWrapper(args)`: checks that `args[0]` and
`args[1]` are functions and calls
`agent->RegisterAsyncHook(isolate, enable_function, disable_function)`. -/
def RegisterAsyncHookWrapper (st : State) (args : List Value) : Option State :=
  match arg args 0 with
  | .function enable_function =>
    match arg args 1 with
    | .function disable_function =>
      some { st with agent := st.agent.RegisterAsyncHook enable_function disable_function }
    | _ => none
  | _ => none

/-- The methods `Initialize` installs on `target` for the relay and the hook
registration (`env->SetMethod(target, name, fn)`), by script-visible name. -/
def Initialize (ptrBits : Nat) (name : String) :
    Option (State → List Value → Option State) :=
  if name = "asyncTaskScheduled" then some (AsyncTaskScheduledWrapper ptrBits)
  else if name = "asyncTaskCanceled" then
    some (InvokeAsyncTaskFnWithId ptrBits Event.AsyncTaskCanceled)
  else if name = "asyncTaskStarted" then
    some (InvokeAsyncTaskFnWithId ptrBits Event.AsyncTaskStarted)
  else if name = "asyncTaskFinished" then
    some (InvokeAsyncTaskFnWithId ptrBits Event.AsyncTaskFinished)
  else if name = "registerAsyncHook" then some RegisterAsyncHookWrapper
  else none

/-- The prototype methods `Initialize` installs on the `Connection` template
(`env->SetProtoMethod(tmpl, name, fn)`). -/
def ConnectionProto (name : String) : Option (State → List Value → Option State) :=
  if name = "dispatch" then some JSBindingsConnection.Dispatch
  else if name = "disconnect" then some JSBindingsConnection.Disconnect_info
  else none

/-- Call the method installed under `name`, with arguments `args`. A name with
no method behind it is not a call the bindings can receive. -/
def callMethod (table : String → Option (State → List Value → Option State))
    (name : String) (st : State) (args : List Value) : Option State :=
  match table name with
  | some fn => fn st args
  | none => none

/-! ## Sequences of operations on one bridge -/

/-- The operations on a bridge: the script calls `dispatch(payload)` or
`disconnect()`, or the native session pushes a message to its delegate. -/
inductive Op where
  | dispatch (payload : List Nat)
  | on_protocol_message (payload : List Nat)
  | disconnect
  deriving DecidableEq

/-- One operation; `kMaxLength` is the engine's `String::kMaxLength`. -/
def step (kMaxLength : Nat) (st : State) : Op → Option State
  | .dispatch payload => callMethod ConnectionProto "dispatch" st [Value.string payload]
  | .on_protocol_message payload => sessionPush kMaxLength st payload
  | .disconnect => callMethod ConnectionProto "disconnect" st []

/-- A sequence of operations, in order; `none` when one of them aborts. -/
def run (kMaxLength : Nat) (st : State) : List Op → Option State
  | [] => some st
  | op :: ops =>
    match step kMaxLength st op with
    | some st1 => run kMaxLength st1 ops
    | none => none

/-- An operation whose string the engine can hold: a pushed message of at most
`kMaxLength` code units; `dispatch` and `disconnect` create no script string. -/
def Op.fits (kMaxLength : Nat) : Op → Bool
  | .on_protocol_message payload => decide (payload.length ≤ kMaxLength)
  | _ => true

/-- How often `session` has been released in a trace. -/
def releases (session : Nat) (trace : List Event) : Nat :=
  trace.count (Event.SessionReleased session)

end inspector
end node

namespace node
namespace inspector

/-! ## Arithmetic of the codec -/

theorem toSigned_emod (x : Int) :
    toSigned 64 (x % 2 ^ 64).toNat % 2 ^ 64 = x % 2 ^ 64 := by
  have h0 : 0 ≤ x % 2 ^ 64 := Int.emod_nonneg _ (by norm_num)
  have hcast : ((x % 2 ^ 64).toNat : Int) = x % 2 ^ 64 := Int.toNat_of_nonneg h0
  unfold toSigned
  split
  · rw [hcast]; exact Int.emod_emod_of_dvd _ (dvd_refl _)
  · rw [hcast, Int.sub_emod, Int.emod_self, sub_zero, Int.emod_emod_of_dvd _ (dvd_refl _),
      Int.emod_emod_of_dvd _ (dvd_refl _)]

theorem GetAsyncTask_64 (id : Int) :
    GetAsyncTask 64 id = ((2 * id) % 2 ^ 64).toNat := by
  unfold GetAsyncTask reinterpret_cast shl64
  rw [toSigned_emod]
  congr 2
  ring

theorem shl64_one_emod_two (id : Int) : shl64 id 1 % 2 = 0 := by
  have h := toSigned_emod (id * 2 ^ 1)
  have hdvd : (2 : Int) ∣ 2 ^ 64 := ⟨2 ^ 63, by norm_num⟩
  have h2 : shl64 id 1 % 2 ^ 64 % 2 = shl64 id 1 % 2 := Int.emod_emod_of_dvd _ hdvd
  have h3 : id * 2 ^ 1 % 2 ^ 64 % 2 = id * 2 ^ 1 % 2 := Int.emod_emod_of_dvd _ hdvd
  unfold shl64 at *
  rw [← h2, h, h3]
  omega

theorem reinterpret_cast_even (ptrBits : Nat) (v : Int) (hv : v % 2 = 0) :
    reinterpret_cast ptrBits v % 2 = 0 := by
  unfold reinterpret_cast
  cases ptrBits with
  | zero => simp
  | succ n =>
    have hpos : (0 : Int) < 2 ^ (n + 1) := by positivity
    have h0 : 0 ≤ v % 2 ^ (n + 1) := Int.emod_nonneg _ (ne_of_gt hpos)
    have hdvd : (2 : Int) ∣ 2 ^ (n + 1) := ⟨2 ^ n, by ring⟩
    have h2 : v % 2 ^ (n + 1) % 2 = v % 2 := Int.emod_emod_of_dvd _ hdvd
    have hc : ((v % 2 ^ (n + 1)).toNat : Int) = v % 2 ^ (n + 1) := Int.toNat_of_nonneg h0
    omega

theorem GetAsyncTask_signed (id : Int) (hlo : -2 ^ 62 ≤ id) (hhi : id < 2 ^ 62) :
    toSigned 64 (GetAsyncTask 64 id) = 2 * id := by
  rw [GetAsyncTask_64]
  unfold toSigned
  have h0 : 0 ≤ (2 * id) % 2 ^ 64 := Int.emod_nonneg _ (by norm_num)
  have hcast : (((2 * id) % 2 ^ 64).toNat : Int) = (2 * id) % 2 ^ 64 :=
    Int.toNat_of_nonneg h0
  have hlt : ((2 * id) % 2 ^ 64).toNat < 2 ^ (64 - 1) ↔ (2 * id) % 2 ^ 64 < 2 ^ 63 := by
    constructor
    · intro h
      have : (((2 * id) % 2 ^ 64).toNat : Int) < 2 ^ 63 := by exact_mod_cast h
      omega
    · intro h
      have : (((2 * id) % 2 ^ 64).toNat : Int) < 2 ^ 63 := by omega
      exact_mod_cast this
  by_cases hneg : 0 ≤ id
  · have hm : (2 * id) % 2 ^ 64 = 2 * id := Int.emod_eq_of_lt (by omega) (by omega)
    rw [if_pos (hlt.mpr (by omega)), hcast, hm]
  · have hm : (2 * id) % 2 ^ 64 = 2 * id + 2 ^ 64 := by
      have : (2 * id) % 2 ^ 64 = (2 * id + 2 ^ 64) % 2 ^ 64 := by
        rw [Int.add_emod_self]
      rw [this]
      exact Int.emod_eq_of_lt (by omega) (by omega)
    rw [if_neg (fun h => by have := hlt.mp h; omega), hcast, hm]
    ring

/-! ## The task handle codec -/

/-- C1: for every signed 64-bit task identifier `id`, on a 64-bit pointer width
the handle `GetAsyncTask(id)` has the bit pattern `(2 * id) mod 2^64`, and for
`-2^62 <= id < 2^62` its signed value is exactly `2 * id`. -/
theorem GetAsyncTask_is_shift (id : Int) (_hid : isInt64 id) :
    GetAsyncTask 64 id = ((2 * id) % 2 ^ 64).toNat ∧
    (-2 ^ 62 ≤ id → id < 2 ^ 62 → toSigned 64 (GetAsyncTask 64 id) = 2 * id) :=
  ⟨GetAsyncTask_64 id, GetAsyncTask_signed id⟩

/-- Witness for C1: the identifier 42 gives the handle 84. -/
theorem GetAsyncTask_is_shift_witness :
    isInt64 42 ∧ GetAsyncTask 64 42 = 84 ∧ toSigned 64 (GetAsyncTask 64 42) = 84 := by
  have h := GetAsyncTask_is_shift 42 (by decide)
  refine ⟨by decide, ?_, ?_⟩
  · rw [h.1]; decide
  · rw [h.2 (by norm_num) (by norm_num)]; norm_num

/-- C2: for every task identifier `id` (wrapped shifts included) and every
pointer width, the handle `GetAsyncTask(id)` is even: its value modulo 2 is 0
and its lowest bit is clear. -/
theorem GetAsyncTask_even (ptrBits : Nat) (id : Int) :
    GetAsyncTask ptrBits id % 2 = 0 ∧ (GetAsyncTask ptrBits id).testBit 0 = false := by
  have h : GetAsyncTask ptrBits id % 2 = 0 :=
    reinterpret_cast_even ptrBits _ (shl64_one_emod_two id)
  refine ⟨h, ?_⟩
  simp [Nat.testBit_zero, h]

/-- C10: on 64-bit handles `GetAsyncTask` is injective on `-2^62 <= id < 2^62`,
and the bound is tight: `a` and `a + 2^63` always share a handle, as do `0` and
`-2^63` (both give `0`). -/
theorem GetAsyncTask_injective :
    (∀ a b : Int, -2 ^ 62 ≤ a → a < 2 ^ 62 → -2 ^ 62 ≤ b → b < 2 ^ 62 →
      GetAsyncTask 64 a = GetAsyncTask 64 b → a = b) ∧
    (∀ a : Int, isInt64 a → isInt64 (a + 2 ^ 63) →
      GetAsyncTask 64 a = GetAsyncTask 64 (a + 2 ^ 63)) ∧
    (isInt64 0 ∧ isInt64 (-2 ^ 63) ∧ GetAsyncTask 64 0 = 0 ∧
      GetAsyncTask 64 (-2 ^ 63) = 0 ∧
      isInt64 (2 ^ 62) ∧ GetAsyncTask 64 (2 ^ 62) = GetAsyncTask 64 (-2 ^ 62)) := by
  refine ⟨?_, ?_, ?_⟩
  · intro a b ha1 ha2 hb1 hb2 h
    have ha := GetAsyncTask_signed a ha1 ha2
    have hb := GetAsyncTask_signed b hb1 hb2
    rw [h] at ha
    omega
  · intro a _ _
    rw [GetAsyncTask_64, GetAsyncTask_64]
    have : 2 * (a + 2 ^ 63) = 2 * a + 2 ^ 64 := by ring
    rw [this, Int.add_emod_self]
  · refine ⟨by decide, by decide, ?_, ?_, by decide, ?_⟩
    · rw [GetAsyncTask_64]; decide
    · rw [GetAsyncTask_64]; decide
    · rw [GetAsyncTask_64, GetAsyncTask_64]; decide

/-- Witness for C10: the in-range identifiers 3 and -5 get different handles,
and -2^62 shares its handle with -2^62 + 2^63. -/
theorem GetAsyncTask_injective_witness :
    GetAsyncTask 64 3 ≠ GetAsyncTask 64 (-5) ∧
    GetAsyncTask 64 (-2 ^ 62) = GetAsyncTask 64 (-2 ^ 62 + 2 ^ 63) :=
  ⟨fun h => absurd
      (GetAsyncTask_injective.1 3 (-5) (by norm_num) (by norm_num) (by norm_num)
        (by norm_num) h)
      (by decide),
    GetAsyncTask_injective.2.1 (-2 ^ 62) (by decide) (by decide)⟩

/-! ## String conversions -/

theorem NewFromTwoByte_whole (kMaxLength : Nat) (message : List Nat)
    (hlen : message.length ≤ kMaxLength) :
    NewFromTwoByte kMaxLength message message.length = some (Value.string message) := by
  simp [NewFromTwoByte, hlen]

theorem NewFromTwoByte_too_long (kMaxLength : Nat) (message : List Nat)
    (hlen : kMaxLength < message.length) :
    NewFromTwoByte kMaxLength message message.length = none := by
  unfold NewFromTwoByte
  rw [if_neg (Nat.not_le.mpr hlen)]

theorem ToProtocolString_string (payload : List Nat) :
    ToProtocolString (Value.string payload) = payload := by
  simp [ToProtocolString, TwoByteValue]

/-! ## Single operations on a connected bridge -/

theorem sessionPush_connected (kMaxLength : Nat) (st : State)
    (connection : JSBindingsConnection) (s : InspectorSession) (message : List Nat)
    (hh : st.holder = some connection) (hs : connection.session_ = some s)
    (hlen : message.length ≤ kMaxLength) :
    sessionPush kMaxLength st message =
      some (st.emit (Event.Call connection.callback_ [Value.string message])) := by
  simp [sessionPush, hh, hs, JSBindingsSessionDelegate.SendMessageToFrontend,
    NewFromTwoByte_whole kMaxLength message hlen, JSBindingsConnection.OnMessage,
    MakeCallback]

theorem sessionPush_too_long (kMaxLength : Nat) (st : State)
    (connection : JSBindingsConnection) (s : InspectorSession) (message : List Nat)
    (hh : st.holder = some connection) (hs : connection.session_ = some s)
    (hlen : kMaxLength < message.length) :
    sessionPush kMaxLength st message = none := by
  simp only [sessionPush, hh, hs, JSBindingsSessionDelegate.SendMessageToFrontend,
    NewFromTwoByte_too_long kMaxLength message hlen]

theorem Dispatch_connected (st : State) (connection : JSBindingsConnection)
    (s : InspectorSession) (payload : List Nat)
    (hh : st.holder = some connection) (hs : connection.session_ = some s) :
    JSBindingsConnection.Dispatch st [Value.string payload] =
      some (st.emit (Event.SessionDispatch s.id payload)) := by
  simp [JSBindingsConnection.Dispatch, FromJSObject, hh, hs, arg, Value.IsString,
    ToProtocolString, TwoByteValue]

theorem Dispatch_not_connected (st : State) (info : List Value)
    (h : st.connected = false) (hinfo : (arg info 0).IsString = true) :
    JSBindingsConnection.Dispatch st info = some st := by
  unfold JSBindingsConnection.Dispatch FromJSObject
  unfold State.connected at h
  cases hh : st.holder with
  | none => rfl
  | some connection =>
    rw [hh] at h
    cases hs : connection.session_ with
    | none => simp [hinfo, hs]
    | some s => simp [hs] at h

theorem sessionPush_not_connected (kMaxLength : Nat) (st : State) (message : List Nat)
    (h : st.connected = false) : sessionPush kMaxLength st message = some st := by
  unfold sessionPush
  unfold State.connected at h
  cases hh : st.holder with
  | none => rfl
  | some connection =>
    rw [hh] at h
    cases hs : connection.session_ with
    | none => simp [hs]
    | some s => simp [hs] at h

theorem sessionPush_holder (kMaxLength : Nat) (st st1 : State) (message : List Nat)
    (h : sessionPush kMaxLength st message = some st1) :
    st1.holder = st.holder ∧ st1.agent = st.agent := by
  by_cases hc : st.connected = true
  · unfold State.connected at hc
    cases hh : st.holder with
    | none => simp [hh] at hc
    | some connection =>
      cases hs : connection.session_ with
      | none => simp [hh, hs] at hc
      | some s =>
        by_cases hlen : message.length ≤ kMaxLength
        · rw [sessionPush_connected kMaxLength st connection s message hh hs hlen] at h
          simp only [Option.some.injEq] at h
          subst h
          exact ⟨hh, rfl⟩
        · rw [sessionPush_too_long kMaxLength st connection s message hh hs
            (Nat.lt_of_not_le hlen)] at h
          cases h
  · have hc1 : st.connected = false := by simpa using hc
    rw [sessionPush_not_connected kMaxLength st message hc1] at h
    simp only [Option.some.injEq] at h
    subst h
    exact ⟨rfl, rfl⟩

theorem step_dispatch (kMaxLength : Nat) (st : State) (payload : List Nat) :
    step kMaxLength st (Op.dispatch payload) =
      JSBindingsConnection.Dispatch st [Value.string payload] := by
  simp [step, callMethod, ConnectionProto]

theorem step_disconnect (kMaxLength : Nat) (st : State) :
    step kMaxLength st Op.disconnect = JSBindingsConnection.Disconnect_info st [] := by
  simp [step, callMethod, ConnectionProto]

theorem Disconnect_info_holder (st : State) (info : List Value) :
    ∃ st1, JSBindingsConnection.Disconnect_info st info = some st1 ∧ st1.holder = none ∧
      st1.agent = st.agent := by
  unfold JSBindingsConnection.Disconnect_info FromJSObject
  cases hh : st.holder with
  | none => exact ⟨st, rfl, hh, rfl⟩
  | some connection =>
    refine ⟨_, rfl, ?_, ?_⟩
    · simp [JSBindingsConnection.Disconnect, BaseObject.destroy]
    · cases hs : connection.session_ <;>
        simp [JSBindingsConnection.Disconnect, BaseObject.destroy, releaseSession, hs,
          State.emit]

theorem Disconnect_info_connected (st : State) (connection : JSBindingsConnection)
    (s : InspectorSession) (info : List Value)
    (hh : st.holder = some connection) (hs : connection.session_ = some s) :
    JSBindingsConnection.Disconnect_info st info =
      some { st with trace := st.trace ++ [Event.SessionReleased s.id], holder := none } := by
  simp [JSBindingsConnection.Disconnect_info, FromJSObject, hh,
    JSBindingsConnection.Disconnect, BaseObject.destroy, releaseSession, hs, State.emit]

theorem Disconnect_info_no_holder (st : State) (info : List Value)
    (hh : st.holder = none) : JSBindingsConnection.Disconnect_info st info = some st := by
  simp [JSBindingsConnection.Disconnect_info, FromJSObject, hh]

theorem connected_of_holder_none (st : State) (hh : st.holder = none) :
    st.connected = false := by
  simp [State.connected, hh]

/-! ## Message delivery -/

theorem run_pushes (kMaxLength : Nat) (msgs : List (List Nat))
    (connection : JSBindingsConnection) (s : InspectorSession)
    (hfit : ∀ m ∈ msgs, m.length ≤ kMaxLength) :
    ∀ st : State, st.holder = some connection → connection.session_ = some s →
      run kMaxLength st (msgs.map Op.on_protocol_message) =
        some { st with trace := (st.trace ++
          msgs.map (fun m => Event.Call connection.callback_ [Value.string m])) } := by
  induction msgs with
  | nil => intro st _ _; simp [run]
  | cons m rest ih =>
    intro st hh hs
    have hstep : step kMaxLength st (Op.on_protocol_message m) =
        some (st.emit (Event.Call connection.callback_ [Value.string m])) := by
      simp only [step]
      exact sessionPush_connected kMaxLength st connection s m hh hs
        (hfit m (List.mem_cons_self m rest))
    simp only [List.map_cons, run, hstep]
    rw [ih (fun x hx => hfit x (List.mem_cons_of_mem m hx))
      (st.emit (Event.Call connection.callback_ [Value.string m])) hh hs]
    simp [State.emit]

theorem run_dispatches (kMaxLength : Nat) (payloads : List (List Nat))
    (connection : JSBindingsConnection) (s : InspectorSession) :
    ∀ st : State, st.holder = some connection → connection.session_ = some s →
      run kMaxLength st (payloads.map Op.dispatch) =
        some { st with trace := (st.trace ++
          payloads.map (fun p => Event.SessionDispatch s.id p)) } := by
  induction payloads with
  | nil => intro st _ _; simp [run]
  | cons p rest ih =>
    intro st hh hs
    have hstep : step kMaxLength st (Op.dispatch p) =
        some (st.emit (Event.SessionDispatch s.id p)) := by
      rw [step_dispatch]
      exact Dispatch_connected st connection s p hh hs
    simp only [List.map_cons, run, hstep]
    rw [ih (st.emit (Event.SessionDispatch s.id p)) hh hs]
    simp [State.emit]

/-- C3, as the code has it: for every sequence of messages `m1..mn`, each of at
most `String::kMaxLength` code units, that the native session pushes to a
connected bridge through `SendMessageToFrontend`, the registered callback is
invoked exactly `n` times, the i-th call has `mi` as its single argument, and
nothing else happens: no message is dropped, duplicated or reordered. -/
theorem pushed_messages_delivered_in_order (kMaxLength : Nat) (st : State)
    (connection : JSBindingsConnection) (s : InspectorSession) (msgs : List (List Nat))
    (hh : st.holder = some connection) (hs : connection.session_ = some s)
    (hfit : ∀ m ∈ msgs, m.length ≤ kMaxLength) :
    ∃ st1, run kMaxLength st (msgs.map Op.on_protocol_message) = some st1 ∧
      st1.trace = st.trace ++
        msgs.map (fun m => Event.Call connection.callback_ [Value.string m]) ∧
      (st1.trace.drop st.trace.length).length = msgs.length ∧
      (∀ i (hi : i < msgs.length),
        (st1.trace.drop st.trace.length)[i]? =
          some (Event.Call connection.callback_ [Value.string msgs[i]])) ∧
      st1.holder = st.holder ∧ st1.agent = st.agent := by
  refine ⟨_, run_pushes kMaxLength msgs connection s hfit st hh hs, rfl, ?_, ?_, rfl, rfl⟩
  · simp
  · intro i hi
    simp [List.getElem?_map, List.getElem?_eq_getElem hi]

/-- Witness for C3: with the limit `2^29 - 24`, the messages "a", "b", "c"
pushed to a bridge with callback 7 yield the calls with "a", then "b", then
"c". -/
theorem pushed_messages_delivered_in_order_witness :
    ∃ st1, run (2 ^ 29 - 24) ⟨⟨0, none⟩, [], some ⟨some ⟨0⟩, 7⟩⟩
        ([[97], [98], [99]].map Op.on_protocol_message) = some st1 ∧
      st1.trace = [Event.Call 7 [Value.string [97]], Event.Call 7 [Value.string [98]],
        Event.Call 7 [Value.string [99]]] := by
  obtain ⟨st1, h1, h2, _⟩ := pushed_messages_delivered_in_order (2 ^ 29 - 24)
    ⟨⟨0, none⟩, [], some ⟨some ⟨0⟩, 7⟩⟩ ⟨some ⟨0⟩, 7⟩ ⟨0⟩ [[97], [98], [99]] rfl rfl
    (by intro m hm; simp at hm; rcases hm with rfl | rfl | rfl <;> simp)
  exact ⟨st1, h1, by simpa using h2⟩

theorem run_push_too_long (kMaxLength : Nat) (st : State)
    (connection : JSBindingsConnection) (s : InspectorSession) (message : List Nat)
    (hh : st.holder = some connection) (hs : connection.session_ = some s)
    (hlen : kMaxLength < message.length) :
    run kMaxLength st ([message].map Op.on_protocol_message) = none := by
  simp only [List.map_cons, List.map_nil, run, step,
    sessionPush_too_long kMaxLength st connection s message hh hs hlen]

/-- Counterexample to C3 as stated: a message longer than `String::kMaxLength`
pushed to a connected bridge is not delivered. `String::NewFromTwoByte` returns
an empty handle, `ToLocalChecked()` aborts, and the callback is never invoked.
Shown for both 64-bit values of the limit: `2^29` code units against the limit
`2^29 - 24`, and `2^30` code units against the limit `2^30 - 25`. -/
theorem pushed_overlong_message_aborts :
    run (2 ^ 29 - 24) ⟨⟨1, none⟩, [], some ⟨some ⟨0⟩, 7⟩⟩
        ([List.replicate (2 ^ 29) 97].map Op.on_protocol_message) = none ∧
    run (2 ^ 30 - 25) ⟨⟨1, none⟩, [], some ⟨some ⟨0⟩, 7⟩⟩
        ([List.replicate (2 ^ 30) 97].map Op.on_protocol_message) = none := by
  have hh : (⟨⟨1, none⟩, [], some ⟨some ⟨0⟩, 7⟩⟩ : State).holder = some ⟨some ⟨0⟩, 7⟩ :=
    rfl
  have hs : (⟨some ⟨0⟩, 7⟩ : JSBindingsConnection).session_ = some ⟨0⟩ := rfl
  have h1 : 2 ^ 29 - 24 < (List.replicate (2 ^ 29) 97).length := by
    rw [List.length_replicate]; norm_num
  have h2 : 2 ^ 30 - 25 < (List.replicate (2 ^ 30) 97).length := by
    rw [List.length_replicate]; norm_num
  exact ⟨run_push_too_long _ _ _ _ _ hh hs h1, run_push_too_long _ _ _ _ _ hh hs h2⟩

/-! ## Dispatch -/

theorem run_dispatches_not_connected (kMaxLength : Nat) (payloads : List (List Nat))
    (st : State) (h : st.connected = false) :
    run kMaxLength st (payloads.map Op.dispatch) = some st := by
  induction payloads with
  | nil => rfl
  | cons p rest ih =>
    have hstep : step kMaxLength st (Op.dispatch p) = some st := by
      rw [step_dispatch]
      exact Dispatch_not_connected st _ h rfl
    simp only [List.map_cons, run, hstep]
    exact ih

/-- C4: on a connected bridge, `dispatch(p)` calls the owned session's
`Dispatch` exactly once, with a payload equal to `p` code unit for code unit,
and does nothing else; a sequence of dispatch calls `p1..pn` reaches the
session as `p1..pn`, in the order issued. -/
theorem dispatch_forwards_verbatim (kMaxLength : Nat) (st : State)
    (connection : JSBindingsConnection)
    (s : InspectorSession) (p : List Nat) (payloads : List (List Nat))
    (hh : st.holder = some connection) (hs : connection.session_ = some s) :
    ToProtocolString (Value.string p) = p ∧
    JSBindingsConnection.Dispatch st [Value.string p] =
      some { st with trace := st.trace ++ [Event.SessionDispatch s.id p] } ∧
    callMethod ConnectionProto "dispatch" st [Value.string p] =
      JSBindingsConnection.Dispatch st [Value.string p] ∧
    run kMaxLength st (payloads.map Op.dispatch) =
      some { st with trace := (st.trace ++
        payloads.map (fun q => Event.SessionDispatch s.id q)) } := by
  refine ⟨ToProtocolString_string p, ?_, ?_,
    run_dispatches kMaxLength payloads connection s st hh hs⟩
  · rw [Dispatch_connected st connection s p hh hs]; rfl
  · simp [callMethod, ConnectionProto]

/-- Witness for C4: on a fresh bridge owning session 0, dispatching "ping"
and then "pong" reaches session 0 as "ping", then "pong". -/
theorem dispatch_forwards_verbatim_witness :
    run (2 ^ 29 - 24) ⟨⟨1, none⟩, [], some ⟨some ⟨0⟩, 7⟩⟩
        ([[112, 105, 110, 103], [112, 111, 110, 103]].map Op.dispatch) =
      some ⟨⟨1, none⟩,
        [Event.SessionDispatch 0 [112, 105, 110, 103],
         Event.SessionDispatch 0 [112, 111, 110, 103]],
        some ⟨some ⟨0⟩, 7⟩⟩ :=
  (dispatch_forwards_verbatim (2 ^ 29 - 24) ⟨⟨1, none⟩, [], some ⟨some ⟨0⟩, 7⟩⟩
    ⟨some ⟨0⟩, 7⟩ ⟨0⟩ [] [[112, 105, 110, 103], [112, 111, 110, 103]] rfl rfl).2.2.2

/-- C5: for every bridge and every string payload `p`, a `dispatch(p)` made
after `disconnect()` is a no-op: it does not abort, calls nothing (the trace is
unchanged) and leaves the bridge state unchanged; the same holds for any
number of later dispatch calls. -/
theorem dispatch_after_disconnect_is_noop (kMaxLength : Nat) (st : State)
    (info : List Value) (p : List Nat) (payloads : List (List Nat)) :
    ∃ st1, JSBindingsConnection.Disconnect_info st info = some st1 ∧
      JSBindingsConnection.Dispatch st1 [Value.string p] = some st1 ∧
      run kMaxLength st1 (payloads.map Op.dispatch) = some st1 := by
  obtain ⟨st1, h1, h2, _⟩ := Disconnect_info_holder st info
  have hc := connected_of_holder_none st1 h2
  exact ⟨st1, h1, Dispatch_not_connected st1 _ hc rfl,
    run_dispatches_not_connected kMaxLength payloads st1 hc⟩

/-! ## Disconnect -/

/-- C7: a second `disconnect()` after a first one has no further effect: it
returns with the state and the trace unchanged, so over the two calls the
session the bridge owned is released exactly once. -/
theorem disconnect_twice_releases_once (kMaxLength : Nat) (st : State)
    (connection : JSBindingsConnection)
    (s : InspectorSession) (hh : st.holder = some connection)
    (hs : connection.session_ = some s) :
    ∃ st1, JSBindingsConnection.Disconnect_info st [] = some st1 ∧
      JSBindingsConnection.Disconnect_info st1 [] = some st1 ∧
      run kMaxLength st [Op.disconnect, Op.disconnect] = some st1 ∧
      st1.trace = st.trace ++ [Event.SessionReleased s.id] ∧
      releases s.id st1.trace = releases s.id st.trace + 1 := by
  have h1 := Disconnect_info_connected st connection s [] hh hs
  refine ⟨_, h1, Disconnect_info_no_holder _ [] rfl, ?_, rfl, ?_⟩
  · simp only [run, step_disconnect, h1]
    rw [Disconnect_info_no_holder _ [] rfl]
  · simp [releases]

/-- Witness for C7: a bridge owning session 3 releases it once over two
`disconnect()` calls. -/
theorem disconnect_twice_releases_once_witness :
    ∃ st1, run (2 ^ 29 - 24) ⟨⟨4, none⟩, [], some ⟨some ⟨3⟩, 7⟩⟩
        [Op.disconnect, Op.disconnect] = some st1 ∧
      st1.trace = [Event.SessionReleased 3] ∧ releases 3 st1.trace = 1 := by
  obtain ⟨st1, _, _, h3, h4, h5⟩ := disconnect_twice_releases_once (2 ^ 29 - 24)
    ⟨⟨4, none⟩, [], some ⟨some ⟨3⟩, 7⟩⟩ ⟨some ⟨3⟩, 7⟩ ⟨3⟩ rfl rfl
  exact ⟨st1, h3, by simpa using h4, by simpa [releases] using h5⟩

/-! ## The bridge state machine -/

theorem step_effect (kMaxLength : Nat) (st st1 : State) (op : Op)
    (h : step kMaxLength st op = some st1) :
    (op ≠ Op.disconnect → st1.holder = st.holder ∧ st1.agent = st.agent) ∧
    (op = Op.disconnect → st1.holder = none ∧ st1.connected = false) := by
  cases op with
  | dispatch payload =>
    rw [step_dispatch] at h
    refine ⟨fun _ => ?_, fun hop => by cases hop⟩
    by_cases hc : st.connected = true
    · unfold State.connected at hc
      cases hh : st.holder with
      | none => simp [hh] at hc
      | some connection =>
        cases hs : connection.session_ with
        | none => simp [hh, hs] at hc
        | some s =>
          rw [Dispatch_connected st connection s payload hh hs] at h
          simp only [Option.some.injEq] at h
          subst h
          exact ⟨hh, rfl⟩
    · have hc1 : st.connected = false := by simpa using hc
      rw [Dispatch_not_connected st [Value.string payload] hc1 rfl] at h
      simp only [Option.some.injEq] at h
      subst h
      exact ⟨rfl, rfl⟩
  | on_protocol_message payload =>
    simp only [step] at h
    exact ⟨fun _ => sessionPush_holder kMaxLength st st1 payload h,
      fun hop => by cases hop⟩
  | disconnect =>
    rw [step_disconnect] at h
    obtain ⟨st2, h1, h2, _⟩ := Disconnect_info_holder st []
    rw [h1] at h
    simp only [Option.some.injEq] at h
    subst h
    exact ⟨fun hop => absurd rfl hop, fun _ => ⟨h2, connected_of_holder_none _ h2⟩⟩

theorem step_returns (kMaxLength : Nat) (st : State) (op : Op)
    (hfit : op.fits kMaxLength = true ∨ st.connected = false) :
    ∃ st1, step kMaxLength st op = some st1 := by
  cases op with
  | dispatch payload =>
    rw [step_dispatch]
    by_cases hc : st.connected = true
    · unfold State.connected at hc
      cases hh : st.holder with
      | none => simp [hh] at hc
      | some connection =>
        cases hs : connection.session_ with
        | none => simp [hh, hs] at hc
        | some s => exact ⟨_, Dispatch_connected st connection s payload hh hs⟩
    · have hc1 : st.connected = false := by simpa using hc
      exact ⟨st, Dispatch_not_connected st _ hc1 rfl⟩
  | on_protocol_message payload =>
    simp only [step]
    by_cases hc : st.connected = true
    · have hlen : payload.length ≤ kMaxLength := by
        rcases hfit with hfit | hfit
        · simpa [Op.fits] using hfit
        · rw [hc] at hfit; cases hfit
      unfold State.connected at hc
      cases hh : st.holder with
      | none => simp [hh] at hc
      | some connection =>
        cases hs : connection.session_ with
        | none => simp [hh, hs] at hc
        | some s =>
          exact ⟨_, sessionPush_connected kMaxLength st connection s payload hh hs hlen⟩
    · have hc1 : st.connected = false := by simpa using hc
      exact ⟨st, sessionPush_not_connected kMaxLength st _ hc1⟩
  | disconnect =>
    rw [step_disconnect]
    obtain ⟨st1, h1, _⟩ := Disconnect_info_holder st []
    exact ⟨st1, h1⟩

theorem connected_of_holder_eq (st st1 : State) (h : st1.holder = st.holder) :
    st1.connected = st.connected := by
  unfold State.connected
  rw [h]

theorem step_stays_disconnected (kMaxLength : Nat) (st : State) (op : Op)
    (h : st.connected = false) :
    ∃ st1, step kMaxLength st op = some st1 ∧ st1.connected = false := by
  obtain ⟨st1, h1⟩ := step_returns kMaxLength st op (Or.inr h)
  obtain ⟨h2, h3⟩ := step_effect kMaxLength st st1 op h1
  refine ⟨st1, h1, ?_⟩
  by_cases hop : op = Op.disconnect
  · exact (h3 hop).2
  · rw [connected_of_holder_eq st st1 (h2 hop).1]; exact h

theorem run_stays_disconnected (kMaxLength : Nat) (ops : List Op) :
    ∀ st : State, st.connected = false →
      ∃ st1, run kMaxLength st ops = some st1 ∧ st1.connected = false := by
  induction ops with
  | nil => intro st h; exact ⟨st, rfl, h⟩
  | cons op rest ih =>
    intro st h
    obtain ⟨st1, h1, h2⟩ := step_stays_disconnected kMaxLength st op h
    obtain ⟨st2, h3, h4⟩ := ih st1 h2
    exact ⟨st2, by simp only [run, h1, h3], h4⟩

/-- C8: the bridge is a two-state machine. A newly constructed bridge is
connected (it owns the session `Agent::Connect` returned). Whenever an
operation returns, `dispatch` and `on_protocol_message` have left the bridge
object as it was and `disconnect` has left the bridge disconnected; every
operation returns, except a pushed message longer than `String::kMaxLength` on
a connected bridge, which aborts the process. From a disconnected bridge every
sequence of operations returns and ends in a disconnected bridge. -/
theorem bridge_state_machine (kMaxLength : Nat) :
    (∀ (st : State) (callback : Nat),
      ∃ st1, JSBindingsConnection.New st [Value.function callback] = some st1 ∧
        st1.connected = true ∧
        st1.holder = some ⟨some ⟨st.agent.next_session_id⟩, callback⟩) ∧
    (∀ (st st1 : State) (op : Op), step kMaxLength st op = some st1 →
        (op ≠ Op.disconnect → st1.holder = st.holder ∧ st1.connected = st.connected) ∧
        (op = Op.disconnect → st1.connected = false)) ∧
    (∀ (st : State) (op : Op), op.fits kMaxLength = true ∨ st.connected = false →
      ∃ st1, step kMaxLength st op = some st1) ∧
    (∀ (st : State) (ops : List Op), st.connected = false →
      ∃ st1, run kMaxLength st ops = some st1 ∧ st1.connected = false) := by
  refine ⟨?_, ?_, fun st op h => step_returns kMaxLength st op h,
    fun st ops h => run_stays_disconnected kMaxLength ops st h⟩
  · intro st callback
    exact ⟨_, rfl, rfl, rfl⟩
  · intro st st1 op h
    obtain ⟨h2, h3⟩ := step_effect kMaxLength st st1 op h
    exact ⟨fun hop => ⟨(h2 hop).1, connected_of_holder_eq st st1 (h2 hop).1⟩,
      fun hop => (h3 hop).2⟩

/-- Witness for C8: a bridge constructed with callback 7 is connected, stays
so over a dispatch, and a disconnected bridge stays disconnected over a
dispatch, a pushed message and a `disconnect()`. -/
theorem bridge_state_machine_witness :
    (∃ st1, JSBindingsConnection.New ⟨⟨0, none⟩, [], none⟩ [Value.function 7] = some st1 ∧
      st1.connected = true) ∧
    (∃ st1, step (2 ^ 29 - 24) ⟨⟨1, none⟩, [], some ⟨some ⟨0⟩, 7⟩⟩ (Op.dispatch [97]) =
        some st1 ∧ st1.connected = true) ∧
    (∃ st1, run (2 ^ 29 - 24) ⟨⟨1, none⟩, [], none⟩
        [Op.dispatch [97], Op.on_protocol_message [98], Op.disconnect] = some st1 ∧
      st1.connected = false) := by
  refine ⟨?_, ?_, (bridge_state_machine (2 ^ 29 - 24)).2.2.2 ⟨⟨1, none⟩, [], none⟩ _ rfl⟩
  · obtain ⟨st1, h1, h2, _⟩ :=
      (bridge_state_machine (2 ^ 29 - 24)).1 ⟨⟨0, none⟩, [], none⟩ 7
    exact ⟨st1, h1, h2⟩
  · obtain ⟨st1, h1⟩ := (bridge_state_machine (2 ^ 29 - 24)).2.2.1
      ⟨⟨1, none⟩, [], some ⟨some ⟨0⟩, 7⟩⟩ (Op.dispatch [97]) (Or.inl rfl)
    have h2 := ((bridge_state_machine (2 ^ 29 - 24)).2.1 _ st1 _ h1).1 (by decide)
    exact ⟨st1, h1, by rw [h2.2]; rfl⟩

/-! ## Async task relay -/

/-- C6: whatever the state and the calls made before, `asyncTaskScheduled(name,
id, recurring)` makes exactly one `Agent::AsyncTaskScheduled` call with the
unchanged name, the handle `GetAsyncTask(id)` and the unchanged flag, and
`asyncTaskStarted(id)`, `asyncTaskFinished(id)`, `asyncTaskCanceled(id)` each
make exactly one call of the matching notification with `GetAsyncTask(id)`;
nothing else changes. For `id = 42` the handle is 84. -/
theorem relay_forwards_once (ptrBits : Nat) (st : State) (name : List Nat) (id : Int)
    (recurring : Bool) :
    callMethod (Initialize ptrBits) "asyncTaskScheduled" st
        [Value.string name, Value.number id, Value.boolean recurring] =
      some { st with trace := st.trace ++
        [Event.AsyncTaskScheduled name (GetAsyncTask ptrBits id) recurring] } ∧
    callMethod (Initialize ptrBits) "asyncTaskStarted" st [Value.number id] =
      some { st with trace := st.trace ++
        [Event.AsyncTaskStarted (GetAsyncTask ptrBits id)] } ∧
    callMethod (Initialize ptrBits) "asyncTaskFinished" st [Value.number id] =
      some { st with trace := st.trace ++
        [Event.AsyncTaskFinished (GetAsyncTask ptrBits id)] } ∧
    callMethod (Initialize ptrBits) "asyncTaskCanceled" st [Value.number id] =
      some { st with trace := st.trace ++
        [Event.AsyncTaskCanceled (GetAsyncTask ptrBits id)] } ∧
    GetAsyncTask 64 42 = 84 ∧ GetAsyncTask 32 42 = 84 := by
  refine ⟨?_, ?_, ?_, ?_, ?_, ?_⟩
  · simp [callMethod, Initialize, AsyncTaskScheduledWrapper, arg, State.emit]
  · simp [callMethod, Initialize, InvokeAsyncTaskFnWithId, arg, State.emit]
  · simp [callMethod, Initialize, InvokeAsyncTaskFnWithId, arg, State.emit]
  · simp [callMethod, Initialize, InvokeAsyncTaskFnWithId, arg, State.emit]
  · rw [GetAsyncTask_64]; decide
  · decide

/-! ## Async-hook registration -/

/-- C9: after `registerAsyncHook(e1, d1)` followed by
`registerAsyncHook(e2, d2)` the stored registration is exactly `(e2, d2)`:
triggering enable makes one call, of `e2`, and triggering disable makes one
call, of `d2`. -/
theorem register_replaces_previous_pair (ptrBits : Nat) (st : State) (e1 d1 e2 d2 : Nat) :
    ∃ st1 st2,
      callMethod (Initialize ptrBits) "registerAsyncHook" st
        [Value.function e1, Value.function d1] = some st1 ∧
      callMethod (Initialize ptrBits) "registerAsyncHook" st1
        [Value.function e2, Value.function d2] = some st2 ∧
      st2.agent.async_hook = some (e2, d2) ∧
      st2.trace = st.trace ∧
      (Agent.EnableAsyncHook st2).trace = st.trace ++ [Event.Call e2 []] ∧
      (Agent.DisableAsyncHook st2).trace = st.trace ++ [Event.Call d2 []] := by
  refine ⟨{ st with agent := st.agent.RegisterAsyncHook e1 d1 },
    { st with agent := (st.agent.RegisterAsyncHook e1 d1).RegisterAsyncHook e2 d2 },
    ?_, ?_, ?_⟩
  · simp [callMethod, Initialize, RegisterAsyncHookWrapper, arg]
  · simp [callMethod, Initialize, RegisterAsyncHookWrapper, arg]
  · simp [Agent.RegisterAsyncHook, Agent.EnableAsyncHook, Agent.DisableAsyncHook,
      State.emit]

end inspector
end node
